import Mathlib

/-!
Shallow embedding of the governance-agent scoring pipeline
(`src/proposal_analyzer.py`, `src/sentiment_analyzer.py`,
`src/evaluator_agents.py`, and the call sites in `src/api.py`).

Modelling conventions:
* Python floats are modelled as exact rationals (`ℚ`).
* A parsed JSON object (the output of `json.loads`) is an association list
  `List (String × PyVal)`; `pyDict` reproduces Python dict construction
  (first-occurrence key order, last value wins), which is what `json.loads`
  itself does for duplicate keys.
* The external model call is an oracle input of type `Except String String`:
  `.error e` models the API call raising an exception with message `e`,
  `.ok text` models `message.content[0].text`.
* `json.loads` on the extracted slice is likewise an oracle
  `String → Except String α` (it may raise `JSONDecodeError`).
* Prompt construction is elided: the prompt only feeds the external model,
  whose response is already an input of the embedding.
-/

/-- JSON-ish values as they appear in the classification-result
dictionaries handled by the pipeline: numbers and strings. (Nested arrays
and objects are not modelled; like a string, any non-numeric value makes
Python's `sum` raise `TypeError`, which is the only way such a value could
influence the embedded code paths.) -/
inductive PyVal where
  | num (q : ℚ)
  | str (s : String)
deriving Repr, DecidableEq

/-- A parsed JSON object / Python dict, as an association list. -/
abbrev Obj := List (String × PyVal)

/-- Keys of an association list, in order. -/
def keysOf (d : List (String × α)) : List String := d.map Prod.fst

/-- Python `d[k]` as a total lookup: the value at the first occurrence of `k`. -/
def lookupKey (k : String) : List (String × α) → Option α
  | [] => none
  | (k', v) :: r => if k' = k then some v else lookupKey k r

/-- Value of the last occurrence of `k`, reflecting that later assignments
to the same key overwrite earlier ones. -/
def lookupLast (k : String) : List (String × α) → Option α
  | [] => none
  | (k', v) :: r =>
    match lookupLast k r with
    | some w => some w
    | none => if k' = k then some v else none

/-- Replace the value stored at every occurrence of key `k` by `v`. -/
def setExisting (k : String) (v : α) (d : List (String × α)) : List (String × α) :=
  d.map fun kv => if kv.1 = k then (k, v) else kv

/-- Python `d[k] = v` on a dict: replace in place when the key exists,
append at the end otherwise. -/
def dictInsert (d : List (String × α)) (k : String) (v : α) : List (String × α) :=
  if (keysOf d).contains k then setExisting k v d else d ++ [(k, v)]

/-- Python `d.update(u)`: assign every pair of `u` into `d`, in order. -/
def dictUpdate (d u : List (String × α)) : List (String × α) :=
  u.foldl (fun d kv => dictInsert d kv.1 kv.2) d

/-- Python dict construction from a pair sequence (what `json.loads` does for
an object, keeping the last value for a duplicated key). -/
def pyDict (l : List (String × α)) : List (String × α) :=
  l.foldl (fun d kv => dictInsert d kv.1 kv.2) []

/-- The three non-category keys of a classification response
(`['sum', 'primary_category', 'summary']` in `proposal_analyzer.py`). -/
def metaKeys : List String := ["sum", "primary_category", "summary"]

/-- The `category_scores` dict comprehension of `analyze_proposal`:
all pairs whose key is not one of `metaKeys`. -/
def weightPairs (r : Obj) : Obj :=
  r.filter fun kv => !(metaKeys.contains kv.1)

/-- The category-weight values of a result, in order. -/
def weightVals (r : Obj) : List PyVal := (weightPairs r).map Prod.snd

/-- The category-weight keys of a result, in order. -/
def weightKeys (r : Obj) : List String := (weightPairs r).map Prod.fst

/-- Python `sum(...)` over dict values, starting from the int `0`: adds
numbers, raises `TypeError` on a string operand. -/
def pySumAux (acc : ℚ) : List PyVal → Except String ℚ
  | [] => .ok acc
  | .num q :: r => pySumAux (acc + q) r
  | .str _ :: _ => .error "unsupported operand type(s) for +"

/-- `sum(category_scores.values())`. -/
def pySum (l : List PyVal) : Except String ℚ := pySumAux 0 l

/-- Division of a score value by the observed total. -/
def pyDivVal (v : PyVal) (t : ℚ) : PyVal :=
  match v with
  | .num q => .num (q / t)
  | v => v

/-- Message of the exception Python raises when the renormalization divides
by an observed total of zero (`ZeroDivisionError`). -/
def zeroDivisionMsg : String := "division by zero"

/-- The eight category identifiers, in the order they appear in the
classification prompt and in the recovery dictionary of
`proposal_analyzer.analyze_proposal`. -/
def categoryKeys : List String :=
  ["protocol_parameters", "treasury_management", "tokenomics",
   "protocol_upgrades", "governance_process", "partnerships_integrations",
   "risk_management", "community_initiatives"]

/-- The recovery dictionary returned by the `except` handler of
`analyze_proposal`: all-zero weights, `sum` 0, `primary_category`
`"error"`, and a diagnostic summary. -/
def errorResult (msg : String) : Obj :=
  (categoryKeys.map fun k => (k, PyVal.num 0)) ++
    [("sum", .num 0), ("primary_category", .str "error"),
     ("summary", .str ("Error analyzing proposal: " ++ msg))]

/-- `text.find('{')` / `text.rfind('}')` and the slice
`text[json_start:json_end]` of `analyze_proposal` (also used verbatim by
`analyze_comment_batch`): the substring from the first `'\x7b'` to the last
`'\x7d'`, or `none` when no such slice exists. -/
def extractJsonSlice (text : String) : Option String :=
  let cs := text.toList
  match cs.findIdx? (· = '{') with
  | none => none
  | some s =>
    match cs.reverse.findIdx? (· = '}') with
    | none => none
    | some kRev =>
      let e := cs.length - 1 - kRev
      if s ≤ e then some (String.mk ((cs.drop s).take (e + 1 - s))) else none

/-- The renormalization block of `analyze_proposal`: divide every category
score by the observed total, write the scaled scores back into the result
dict, and set `result['sum'] = 1.0`. -/
def renormalize (res : Obj) (total : ℚ) : Obj :=
  dictInsert
    (dictUpdate res ((weightPairs res).map fun kv => (kv.1, pyDivVal kv.2 total)))
    "sum" (PyVal.num 1)

/-- The body of `analyze_proposal` from the successfully parsed JSON object
onward: extract the category scores, total them (`TypeError` propagates to
the handler on a non-numeric value), renormalize when the total is farther
than `0.0001` from `1.0`, and otherwise return the parsed object
unchanged. The division happens inside the loop
`for category in category_scores:`, so `ZeroDivisionError` is raised
exactly when the total is zero and at least one category-score pair
exists; with an empty `category_scores` dict the loop body never runs and
the branch still succeeds, merely setting `sum` to `1.0` (which is what
`renormalize` does for an empty pair list). -/
def analyze_proposal_parsed (result : Obj) : Except String Obj :=
  match pySum (weightVals result) with
  | .error e => .error e
  | .ok total =>
    if 1/10000 < |total - 1| then
      if total = 0 ∧ weightPairs result ≠ [] then .error zeroDivisionMsg
      else .ok (renormalize result total)
    else .ok result

/-- `ProposalAnalyzer.analyze_proposal`, from the model-call outcome onward.
`decode` is the `json.loads` oracle; its output is canonicalized by
`pyDict`, which is what `json.loads` itself guarantees for an object.
Every exception on the way is recovered into `errorResult`. -/
def analyze_proposal (outcome : Except String String)
    (decode : String → Except String Obj) : Obj :=
  match outcome with
  | .error e => errorResult e
  | .ok text =>
    match extractJsonSlice text with
    | none => errorResult "No valid JSON found in response"
    | some s =>
      match decode s with
      | .error e => errorResult e
      | .ok obj =>
        match analyze_proposal_parsed (pyDict obj) with
        | .error e => errorResult e
        | .ok r => r

/-- First key holding the maximum numeric weight (accumulator form); a
strictly greater value displaces the current best, so ties keep the
earlier key. -/
def argmaxNumAux (best : Option (String × ℚ)) : Obj → Option (String × ℚ)
  | [] => best
  | (k, .num q) :: r =>
    match best with
    | none => argmaxNumAux (some (k, q)) r
    | some (bk, bq) =>
      if bq < q then argmaxNumAux (some (k, q)) r
      else argmaxNumAux (some (bk, bq)) r
  | _ :: r => argmaxNumAux best r

/-- Argmax over the category weights of a result, first key winning ties:
the recomputation of `primary_category` that the specification describes. -/
def argmaxKey (r : Obj) : Option String :=
  (argmaxNumAux none (weightPairs r)).map Prod.fst

/-- A forum comment as consumed by `SentimentAnalyzer` (only its text is
ever read by the embedded code paths). -/
structure Comment where
  content : String
deriving Repr, DecidableEq

/-- The parsed per-batch analysis JSON of `analyze_comment_batch`. -/
structure BatchAnalysis where
  sentiment_score : ℚ
  summary : String
  key_points : List String
  concerns : List String
  suggestions : List String
deriving Repr, DecidableEq

/-- The per-batch return value of `analyze_comment_batch`:
`{'comments': ..., 'analysis': ...}`. -/
structure BatchResult where
  comments : List Comment
  analysis : BatchAnalysis
deriving Repr, DecidableEq

/-- The aggregate dictionary returned by `analyze_all_comments`. -/
structure SentimentAggregate where
  sentiment_score : ℚ
  summary : String
  key_points : List String
  concerns : List String
  suggestions : List String
  num_comments : Nat
deriving Repr, DecidableEq

/-- The zero/empty analysis built by the `except` handler of
`analyze_comment_batch`, with its diagnostic summary. -/
def errorBatchAnalysis (e : String) : BatchAnalysis :=
  ⟨0, "Error analyzing comments: " ++ e, [], [], []⟩

/-- `SentimentAnalyzer.analyze_comment_batch` from the model-call outcome
onward. `decode` is the `json.loads` oracle for the extracted slice; any
exception is recovered into `errorBatchAnalysis`. -/
def analyze_comment_batch (comments : List Comment)
    (outcome : Except String String)
    (decode : String → Except String BatchAnalysis) : BatchResult :=
  match outcome with
  | .error e => ⟨comments, errorBatchAnalysis e⟩
  | .ok text =>
    match extractJsonSlice text with
    | none => ⟨comments, errorBatchAnalysis "No valid JSON found in response"⟩
    | some s =>
      match decode s with
      | .error e => ⟨comments, errorBatchAnalysis e⟩
      | .ok a => ⟨comments, a⟩

/-- Fuelled worker for `chunks`; the fuel is instantiated with the list
length, which suffices for any positive chunk size. -/
def chunksAux (bs : Nat) : Nat → List α → List (List α)
  | _, [] => []
  | 0, _ => []
  | fuel + 1, x :: xs => (x :: xs).take bs :: chunksAux bs fuel ((x :: xs).drop bs)

/-- The batching loop `for i in range(0, len(comments), self.batch_size)`
with slices `comments[i:i + self.batch_size]`: contiguous chunks of size
`bs`, the last one possibly shorter. (For `bs = 0` Python's `range` raises
before producing anything; `analyze_all_comments` guards that case.) -/
def chunks (bs : Nat) (l : List α) : List (List α) := chunksAux bs l.length l

/-- The per-batch results of `analyze_all_comments`: each batch is analyzed
with its own model-call outcome `oracle i`. -/
def batchResults (bs : Nat) (comments : List Comment)
    (oracle : Nat → Except String String)
    (decode : String → Except String BatchAnalysis) : List BatchResult :=
  (chunks bs comments).enum.map fun p => analyze_comment_batch p.2 (oracle p.1) decode

/-- `SentimentAnalyzer.analyze_all_comments`. `oracle i` is the outcome of
the model call for batch `i`, `decode` the `json.loads` oracle, and `synth`
the outcome of the final summary-synthesis model call (whose prompt, being
input to the external model only, is elided). A `bs = 0` batch size makes
Python's `range` raise; that error is not caught anywhere in the method. -/
def analyze_all_comments (bs : Nat) (comments : List Comment)
    (oracle : Nat → Except String String)
    (decode : String → Except String BatchAnalysis)
    (synth : Except String String) : Except String SentimentAggregate :=
  if comments = [] then
    .ok ⟨0, "No comments to analyze", [], [], [], 0⟩
  else if bs = 0 then
    .error "range() arg 3 must not be zero"
  else
    let results := batchResults bs comments oracle decode
    let total := (results.map fun r => r.analysis.sentiment_score).sum
    let avg := total / (results.length : ℚ)
    let final_summary :=
      match synth with
      | .ok t => t.trim
      | .error e => "Error generating final summary: " ++ e
    .ok ⟨avg, final_summary,
      (results.map fun r => r.analysis.key_points).flatten,
      (results.map fun r => r.analysis.concerns).flatten,
      (results.map fun r => r.analysis.suggestions).flatten,
      comments.length⟩

/-- The order-preserving, first-occurrence-wins deduplication that the
specification ascribes to the aggregation step (spec wording, for
comparison against the embedded code). -/
def dedupFirstOccurrence (l : List String) : List String :=
  l.foldl (fun acc x => if acc.contains x then acc else acc ++ [x]) []

/-- The failure condition of one batch model call: either the call raised,
or its response contains no extractable JSON object. -/
def batchFailed : Except String String → Prop
  | .error _ => True
  | .ok t => extractJsonSlice t = none

/-- Python `\s` on ASCII text (the whitespace class used by `re`). -/
def pyIsSpace (c : Char) : Bool :=
  c == ' ' || c == '\t' || c == '\n' || c == '\r' || c == '\x0b' || c == '\x0c'

/-- Split off a maximal run of characters satisfying `p`, returning its
length and the remainder. -/
def munchRun (p : Char → Bool) : List Char → Nat × List Char
  | [] => (0, [])
  | c :: r =>
    if p c then
      let (n, r') := munchRun p r
      (n + 1, r')
    else (0, c :: r)

/-- Consume an exact literal character sequence, returning the remainder. -/
def matchLit : List Char → List Char → Option (List Char)
  | [], cs => some cs
  | _ :: _, [] => none
  | l :: lr, c :: cr => if c = l then matchLit lr cr else none

/-- Match `\d+\)?\s*:` greedily, returning the number of consumed
characters (greedy `\d+` needs no give-back here: a shorter digit run would
leave a digit where `\)?\s*:` can never match one). -/
def matchNumTail (cs : List Char) : Option Nat :=
  let (nd, r1) := munchRun Char.isDigit cs
  if nd = 0 then none
  else
    let (np, r2) :=
      match r1 with
      | ')' :: r => (1, r)
      | r => (0, r)
    let (ns, r3) := munchRun pyIsSpace r2
    match r3 with
    | ':' :: _ => some (nd + np + ns + 1)
    | _ => none

/-- Match `0?\.?\d+\)?\s*:` with Python's backtracking preference order for
the two optionals: `0.`‑, then `0`‑, then `.`‑prefixed, then bare digits. -/
def matchCore (cs : List Char) : Option Nat :=
  ((matchLit ['0', '.'] cs).bind fun r => (matchNumTail r).map (· + 2)) <|>
  ((matchLit ['0'] cs).bind fun r => (matchNumTail r).map (· + 1)) <|>
  ((matchLit ['.'] cs).bind fun r => (matchNumTail r).map (· + 1)) <|>
  matchNumTail cs

/-- Match `\s*\(?0?\.?\d+\)?\s*:` after the literal `score` (the leading
`\s*` and `\(?` are deterministic: no later pattern element can match a
whitespace character or `(`). -/
def matchAfterScore (cs : List Char) : Option Nat :=
  let (ns, r1) := munchRun pyIsSpace cs
  let (np, r2) :=
    match r1 with
    | '(' :: r => (1, r)
    | r => (0, r)
  (matchCore r2).map (· + ns + np)

/-- `re.search(r"score\s*\(?0?\.?\d+\)?\s*:", text, re.IGNORECASE)`:
leftmost match, returning the matched substring. -/
def pySearchScore : List Char → Option (List Char)
  | [] => none
  | c :: r =>
    if ((c :: r).take 5).map Char.toLower = ['s', 'c', 'o', 'r', 'e'] then
      match matchAfterScore ((c :: r).drop 5) with
      | some n => some ((c :: r).take (5 + n))
      | none => pySearchScore r
    else pySearchScore r

/-- Match `0?\.?\d+` at the start of the input (same optional-preference
order as `matchCore`; the trailing greedy `\d+` has nothing after it). -/
def matchBareNum (cs : List Char) : Option Nat :=
  let digitsAfter : List Char → Nat → Option Nat := fun r k =>
    let (nd, _) := munchRun Char.isDigit r
    if nd = 0 then none else some (k + nd)
  ((matchLit ['0', '.'] cs).bind fun r => digitsAfter r 2) <|>
  ((matchLit ['0'] cs).bind fun r => digitsAfter r 1) <|>
  ((matchLit ['.'] cs).bind fun r => digitsAfter r 1) <|>
  digitsAfter cs 0

/-- `re.search(r"0?\.?\d+", text)`: leftmost match, returning the matched
substring. -/
def pySearchNum : List Char → Option (List Char)
  | [] => none
  | c :: r =>
    match matchBareNum (c :: r) with
    | some n => some ((c :: r).take n)
    | none => pySearchNum r

/-- Digit-string to natural number. -/
def digitsToNat (cs : List Char) : Nat :=
  cs.foldl (fun n c => 10 * n + (c.toNat - '0'.toNat)) 0

/-- Python `float` on a match of `0?\.?\d+` (an optional integer part, an
optional dot, then digits). -/
def pyFloatNum (cs : List Char) : ℚ :=
  let intPart := cs.takeWhile Char.isDigit
  let rest := cs.drop intPart.length
  match rest with
  | '.' :: frac => (digitsToNat intPart : ℚ) + (digitsToNat frac : ℚ) / (10 : ℚ) ^ frac.length
  | _ => (digitsToNat intPart : ℚ)

/-- The score-extraction block of `EvaluatorAgent.evaluate_proposal` in
`evaluator_agents.py`: regex-search the raw response for a
`score ... :`-shaped fragment, then parse the first number inside the
match; on any failure the score stays at its initial `0.0`. -/
def extract_score (text : String) : ℚ :=
  match pySearchScore text.toList with
  | none => 0
  | some matched =>
    match pySearchNum matched with
    | none => 0
    | some numcs => pyFloatNum numcs

/-- Keys of the category-specific prompt table `self.prompts` of
`EvaluatorAgent` in `evaluator_agents.py`, in source order (the template
bodies only feed the external model and are elided). -/
def evaluator_prompts_keys : List String :=
  ["protocol_parameters", "treasury_management", "tokenomics",
   "protocol_upgrades", "governance_process", "partnerships_integrations",
   "risk_management", "community_initiatives"]

/-- The recovery dictionary of the `except` handler of
`EvaluatorAgent.evaluate_proposal` (`evaluator_agents.py`). -/
def evaluatorErrorResult (category e : String) : Obj :=
  [("score", .num 0),
   ("analysis", .str ("Error evaluating proposal: " ++ e)),
   ("category", .str category)]

/-- The analysis dictionary `evaluate_proposal` builds from a model
response: initial score `0.0`, the raw response text under `analysis`, the
input category, with the score overwritten by the regex extraction when it
matches. -/
def evaluatorAnalysis (text category : String) : Obj :=
  [("score", .num (extract_score text)),
   ("analysis", .str text),
   ("category", .str category)]

/-- `EvaluatorAgent.evaluate_proposal` of `evaluator_agents.py`, from the
category check onward. The unknown-category `ValueError` is raised outside
the `try` block, before the prompt is built and before the model is
invoked; the second component counts model-collaborator invocations. -/
def evaluate_proposal (category : String)
    (outcome : Except String String) : Except String Obj × Nat :=
  if evaluator_prompts_keys.contains category then
    match outcome with
    | .error e => (.ok (evaluatorErrorResult category e), 1)
    | .ok text => (.ok (evaluatorAnalysis text category), 1)
  else
    (.error ("Unknown category: " ++ category), 0)

/-- Number of positional parameters (after `self`) of
`SentimentAnalyzer.analyze_all_comments` in `sentiment_analyzer.py`:
`def analyze_all_comments(self, comments)`. -/
def analyze_all_comments_param_count : Nat := 1

/-- Number of positional arguments passed to `analyze_all_comments` by the
pipeline callers (`api.py`, `analyze_proposal.py`, `tests/test_sentiment.py`):
the comment list plus the proposal summary. -/
def api_sentiment_call_arg_count : Nat := 2

/-- Python binds a call whose parameters carry no defaults or varargs
exactly when the positional argument count equals the parameter count;
otherwise the call raises `TypeError`. -/
def python_call_binds (paramCount argCount : Nat) : Bool :=
  argCount == paramCount

/-- Pointwise description of `dictUpdate` when every updated key already
exists: each pair receives the value of the last assignment to its key. -/
def updFn (u : List (String × α)) (kv : String × α) : String × α :=
  match lookupLast kv.1 u with
  | some v => (kv.1, v)
  | none => kv

/-- A parsed classification response realizing the renormalization scenario
of the specification: the eight category scores total `1.1`, and the model
reports `primary_category` as `protocol_parameters`. -/
def objC2 : Obj :=
  [("protocol_parameters", .num (1/2)), ("treasury_management", .num (3/5)),
   ("tokenomics", .num 0), ("protocol_upgrades", .num 0),
   ("governance_process", .num 0), ("partnerships_integrations", .num 0),
   ("risk_management", .num 0), ("community_initiatives", .num 0),
   ("sum", .num (11/10)), ("primary_category", .str "protocol_parameters"),
   ("summary", .str "s")]

/-- A parsed classification response whose eight category scores are all
zero. -/
def objZero : Obj :=
  [("protocol_parameters", .num 0), ("treasury_management", .num 0),
   ("tokenomics", .num 0), ("protocol_upgrades", .num 0),
   ("governance_process", .num 0), ("partnerships_integrations", .num 0),
   ("risk_management", .num 0), ("community_initiatives", .num 0),
   ("sum", .num 0), ("primary_category", .str "protocol_parameters"),
   ("summary", .str "s")]

/-- A parsed classification response with a correctly-summing score set but
an extra category key `foo` in place of seven of the expected eight. -/
def objFoo : Obj :=
  [("protocol_parameters", .num (1/2)), ("foo", .num (1/2)),
   ("sum", .num 1), ("primary_category", .str "protocol_parameters"),
   ("summary", .str "s")]

/-- A model response that is a well-formed JSON object in the
DeepEvaluation shape, carrying a `score` and a `reasoning` field. -/
def deepEvalResponse : String :=
  "\x7b\"score\": 0.9, \"reasoning\": \"high\"\x7d"

/-- Keys of a cons cell. -/
@[simp] theorem keysOf_cons (kv : String × α) (r : List (String × α)) :
    keysOf (kv :: r) = kv.1 :: keysOf r := rfl

/-- Keys of the empty dict. -/
@[simp] theorem keysOf_nil : keysOf ([] : List (String × α)) = [] := rfl

/-- `setExisting` never changes the key sequence. -/
theorem keysOf_setExisting (k : String) (v : α) (d : List (String × α)) :
    keysOf (setExisting k v d) = keysOf d := by
  unfold keysOf setExisting
  rw [List.map_map]
  refine List.map_congr_left ?_
  intro kv _
  by_cases h : kv.1 = k <;> simp [h, Function.comp]

/-- Key sequence of a dict after a Python assignment. -/
theorem keysOf_dictInsert (d : List (String × α)) (k : String) (v : α) :
    keysOf (dictInsert d k v)
      = if (keysOf d).contains k then keysOf d else keysOf d ++ [k] := by
  unfold dictInsert
  by_cases h : (keysOf d).contains k
  · rw [if_pos h, if_pos h, keysOf_setExisting]
  · rw [if_neg h, if_neg h]
    unfold keysOf
    rw [List.map_append]
    rfl

/-- Python assignment preserves key distinctness. -/
theorem nodup_keysOf_dictInsert (d : List (String × α)) (k : String) (v : α)
    (h : (keysOf d).Nodup) : (keysOf (dictInsert d k v)).Nodup := by
  rw [keysOf_dictInsert]
  by_cases hc : (keysOf d).contains k
  · rw [if_pos hc]
    exact h
  · have hk : k ∉ keysOf d := fun hm => hc (List.elem_iff.mpr hm)
    rw [if_neg hc]
    exact List.nodup_append.mpr
      ⟨h, List.nodup_singleton k, by simpa [List.disjoint_singleton] using hk⟩

/-- Folding Python assignments over any dict keeps its keys distinct. -/
theorem nodup_keysOf_foldlInsert (l : List (String × α)) :
    ∀ acc : List (String × α), (keysOf acc).Nodup →
      (keysOf (l.foldl (fun d kv => dictInsert d kv.1 kv.2) acc)).Nodup := by
  induction l with
  | nil => intro acc h; simpa using h
  | cons kv r ih => intro acc h; exact ih _ (nodup_keysOf_dictInsert acc kv.1 kv.2 h)

/-- A Python dict built from any pair sequence has distinct keys. -/
theorem nodup_keysOf_pyDict (l : List (String × α)) : (keysOf (pyDict l)).Nodup :=
  nodup_keysOf_foldlInsert l [] (by simp)

/-- `lookupLast` misses exactly the absent keys. -/
theorem lookupLast_eq_none (k : String) (u : List (String × α)) (h : k ∉ keysOf u) :
    lookupLast k u = none := by
  induction u with
  | nil => rfl
  | cons kv r ih =>
    simp only [keysOf_cons, List.mem_cons, not_or] at h
    simp only [lookupLast, ih h.2]
    rw [if_neg fun hh => h.1 hh.symm]

/-- On a dict with distinct keys, `lookupLast` returns the stored value. -/
theorem lookupLast_mem (u : List (String × α)) (k : String) (v : α)
    (hnd : (keysOf u).Nodup) (hmem : (k, v) ∈ u) : lookupLast k u = some v := by
  induction u with
  | nil => cases hmem
  | cons kv r ih =>
    rcases List.mem_cons.mp hmem with he | hr
    · cases he.symm
      have hk : k ∉ keysOf r := (List.nodup_cons.mp hnd).1
      simp [lookupLast, lookupLast_eq_none k r hk]
    · have hl : lookupLast k r = some v := ih (List.nodup_cons.mp hnd).2 hr
      simp [lookupLast, hl]

/-- `updFn` preserves every key. -/
theorem updFn_key (u : List (String × α)) (kv : String × α) : (updFn u kv).1 = kv.1 := by
  unfold updFn
  cases lookupLast kv.1 u <;> rfl

/-- Commuting a single in-place replacement past `updFn`. -/
theorem updFn_setExisting_point (hd : String × α) (tl : List (String × α))
    (kv : String × α) :
    updFn tl (if kv.1 = hd.1 then (hd.1, hd.2) else kv) = updFn (hd :: tl) kv := by
  by_cases h : kv.1 = hd.1
  · cases hl : lookupLast hd.1 tl <;> simp [h, updFn, lookupLast, hl]
  · have h' : ¬ hd.1 = kv.1 := fun hh => h hh.symm
    cases hl : lookupLast kv.1 tl <;> simp [h, h', updFn, lookupLast, hl]

/-- `dict.update` over keys that all exist acts pointwise: every pair
receives the last value assigned to its key. -/
theorem dictUpdate_eq_map_updFn (u : List (String × α)) :
    ∀ d : List (String × α), (∀ k ∈ keysOf u, k ∈ keysOf d) →
      dictUpdate d u = d.map (updFn u) := by
  induction u with
  | nil =>
    intro d _
    have hid : updFn ([] : List (String × α)) = id := funext fun kv => rfl
    rw [hid, List.map_id]
    rfl
  | cons hd tl ih =>
    intro d hsub
    have hk : hd.1 ∈ keysOf d := hsub hd.1 (by simp)
    have hins : dictInsert d hd.1 hd.2 = setExisting hd.1 hd.2 d := by
      unfold dictInsert
      rw [if_pos (List.elem_iff.mpr hk)]
    have hsub' : ∀ k ∈ keysOf tl, k ∈ keysOf (setExisting hd.1 hd.2 d) := by
      intro k hkm
      rw [keysOf_setExisting]
      exact hsub k (by simp [hkm])
    calc dictUpdate d (hd :: tl)
        = dictUpdate (dictInsert d hd.1 hd.2) tl := rfl
      _ = dictUpdate (setExisting hd.1 hd.2 d) tl := by rw [hins]
      _ = (setExisting hd.1 hd.2 d).map (updFn tl) := ih _ hsub'
      _ = d.map (updFn tl ∘ fun kv => if kv.1 = hd.1 then (hd.1, hd.2) else kv) := by
          unfold setExisting
          rw [List.map_map]
      _ = d.map (updFn (hd :: tl)) :=
          List.map_congr_left fun kv _ => updFn_setExisting_point hd tl kv

/-- Filtering out the meta keys commutes with a key-preserving map. -/
theorem weightPairs_map_keyfix (f : (String × PyVal) → (String × PyVal))
    (hf : ∀ kv, (f kv).1 = kv.1) (d : Obj) :
    weightPairs (d.map f) = (weightPairs d).map f := by
  unfold weightPairs
  rw [List.filter_map]
  refine congrArg (List.map f) (List.filter_congr ?_)
  intro kv _
  simp [Function.comp, hf kv]

/-- Assigning a meta key leaves the category-score pairs unchanged. -/
theorem weightPairs_dictInsert_meta (d : Obj) (k : String) (v : PyVal)
    (hk : metaKeys.contains k) :
    weightPairs (dictInsert d k v) = weightPairs d := by
  unfold dictInsert
  split
  · have hfix : ∀ kv ∈ weightPairs d, (if kv.1 = k then (k, v) else kv) = kv := by
      intro kv hm
      have hp := (List.mem_filter.mp hm).2
      have hne : kv.1 ≠ k := by
        intro he
        rw [he, hk] at hp
        simp at hp
      rw [if_neg hne]
    have hkeep : ∀ kv : String × PyVal, ((if kv.1 = k then (k, v) else kv) : String × PyVal).1 = kv.1 := by
      intro kv
      by_cases h : kv.1 = k <;> simp [h]
    calc weightPairs (setExisting k v d)
        = (weightPairs d).map fun kv => if kv.1 = k then (k, v) else kv :=
          weightPairs_map_keyfix _ hkeep d
      _ = (weightPairs d).map id := List.map_congr_left hfix
      _ = weightPairs d := List.map_id _
  · have : weightPairs (d ++ [(k, v)]) = weightPairs d ++ weightPairs [(k, v)] :=
      List.filter_append _ _
    rw [this]
    have hkm : k ∈ metaKeys := List.elem_iff.mp hk
    simp [weightPairs, hkm]

/-- Category-weight keys are keys of the dict. -/
theorem mem_weightKeys_mem_keysOf (d : Obj) (k : String) (h : k ∈ weightKeys d) :
    k ∈ keysOf d := by
  unfold weightKeys weightPairs at h
  rcases List.mem_map.mp h with ⟨kv, hmem, rfl⟩
  exact List.mem_map_of_mem _ (List.mem_of_mem_filter hmem)

/-- Distinct dict keys give distinct category-weight keys. -/
theorem nodup_weightKeys (d : Obj) (h : (keysOf d).Nodup) : (weightKeys d).Nodup :=
  h.sublist ((List.filter_sublist d).map Prod.fst)

/-- A meta key never appears among the category-weight keys. -/
theorem metaKey_not_mem_weightKeys (d : Obj) (k : String) (hk : metaKeys.contains k) :
    k ∉ weightKeys d := by
  intro h
  unfold weightKeys weightPairs at h
  rcases List.mem_map.mp h with ⟨kv, hmem, rfl⟩
  have hp := (List.mem_filter.mp hmem).2
  rw [hk] at hp
  simp at hp

/-- Lookup in a concatenation: the left part wins. -/
theorem lookupKey_append (k : String) (d e : List (String × α)) :
    lookupKey k (d ++ e)
      = match lookupKey k d with
        | some v => some v
        | none => lookupKey k e := by
  induction d with
  | nil => rfl
  | cons kv r ih => by_cases h : kv.1 = k <;> simp [lookupKey, h, ih]

/-- Lookup is unchanged by a key-preserving map that fixes the pairs stored
under the looked-up key. -/
theorem lookupKey_map_keyfix (k : String) (f : (String × α) → (String × α))
    (d : List (String × α)) (hf : ∀ kv, (f kv).1 = kv.1)
    (hfix : ∀ kv : String × α, kv.1 = k → f kv = kv) :
    lookupKey k (d.map f) = lookupKey k d := by
  induction d with
  | nil => rfl
  | cons kv r ih =>
    by_cases h : kv.1 = k
    · simp [lookupKey, hfix kv h, h]
    · have h' : (f kv).1 = kv.1 := hf kv
      simp [lookupKey, h', h, ih]

/-- Assigning one key leaves lookups of any other key unchanged. -/
theorem lookupKey_dictInsert_ne (k k' : String) (v : α) (d : List (String × α))
    (h : k ≠ k') :
    lookupKey k (dictInsert d k' v) = lookupKey k d := by
  unfold dictInsert
  split
  · exact lookupKey_map_keyfix k _ d
      (fun kv => by by_cases hh : kv.1 = k' <;> simp [hh])
      (fun kv hk => by rw [if_neg (by rw [hk]; exact h)])
  · rw [lookupKey_append]
    have h' : ¬ k' = k := fun hh => h hh.symm
    cases hl : lookupKey k d <;> simp [hl, lookupKey, h']

/-- The scaled category scores written back by the renormalization block,
as used in `renormalize`. -/
theorem keysOf_scaled (res : Obj) (total : ℚ) :
    keysOf ((weightPairs res).map fun kv => (kv.1, pyDivVal kv.2 total))
      = weightKeys res := by
  unfold keysOf weightKeys
  rw [List.map_map]
  exact List.map_congr_left fun kv _ => rfl

/-- Renormalization rescales exactly the category-score pairs (dict with
distinct keys). -/
theorem weightPairs_renormalize (res : Obj) (total : ℚ)
    (hnd : (keysOf res).Nodup) :
    weightPairs (renormalize res total)
      = (weightPairs res).map fun kv => (kv.1, pyDivVal kv.2 total) := by
  unfold renormalize
  have hsub : ∀ k ∈ keysOf ((weightPairs res).map fun kv => (kv.1, pyDivVal kv.2 total)),
      k ∈ keysOf res := by
    rw [keysOf_scaled]
    exact fun k hk => mem_weightKeys_mem_keysOf res k hk
  rw [weightPairs_dictInsert_meta _ _ _ (by rfl)]
  rw [dictUpdate_eq_map_updFn _ res hsub]
  rw [weightPairs_map_keyfix (updFn _) (updFn_key _) res]
  refine List.map_congr_left ?_
  intro kv hm
  have hmm : (kv.1, pyDivVal kv.2 total)
      ∈ (weightPairs res).map fun kv => (kv.1, pyDivVal kv.2 total) :=
    List.mem_map_of_mem _ hm
  have hnd' : (keysOf ((weightPairs res).map fun kv => (kv.1, pyDivVal kv.2 total))).Nodup := by
    rw [keysOf_scaled]
    exact nodup_weightKeys res hnd
  unfold updFn
  rw [lookupLast_mem _ kv.1 (pyDivVal kv.2 total) hnd' hmm]

/-- Renormalization never touches the stored `primary_category`. -/
theorem lookupKey_renormalize_pc (res : Obj) (total : ℚ) :
    lookupKey "primary_category" (renormalize res total)
      = lookupKey "primary_category" res := by
  unfold renormalize
  have hsub : ∀ k ∈ keysOf ((weightPairs res).map fun kv => (kv.1, pyDivVal kv.2 total)),
      k ∈ keysOf res := by
    rw [keysOf_scaled]
    exact fun k hk => mem_weightKeys_mem_keysOf res k hk
  have hpc : "primary_category"
      ∉ keysOf ((weightPairs res).map fun kv => (kv.1, pyDivVal kv.2 total)) := by
    rw [keysOf_scaled]
    exact metaKey_not_mem_weightKeys res _ (by rfl)
  rw [lookupKey_dictInsert_ne _ _ _ _ (by decide)]
  rw [dictUpdate_eq_map_updFn _ res hsub]
  exact lookupKey_map_keyfix _ _ res (updFn_key _) fun kv hk => by
    unfold updFn
    rw [hk, lookupLast_eq_none _ _ hpc]

/-- `pySum` over pure numbers (accumulator form). -/
theorem pySumAux_map_num (qs : List ℚ) :
    ∀ acc, pySumAux acc (qs.map PyVal.num) = .ok (acc + qs.sum) := by
  induction qs with
  | nil => intro acc; simp [pySumAux]
  | cons q r ih => intro acc; simp [pySumAux, ih, add_assoc]

/-- `sum` of a list of numbers succeeds with the list's sum. -/
theorem pySum_map_num (qs : List ℚ) : pySum (qs.map PyVal.num) = .ok qs.sum := by
  unfold pySum
  rw [pySumAux_map_num, zero_add]

/-- A successful `sum` means every value was a number (accumulator form). -/
theorem pySumAux_ok (l : List PyVal) :
    ∀ acc t, pySumAux acc l = .ok t →
      ∃ qs : List ℚ, l = qs.map PyVal.num ∧ acc + qs.sum = t := by
  induction l with
  | nil =>
    intro acc t h
    exact ⟨[], rfl, by simpa [pySumAux] using h⟩
  | cons v r ih =>
    intro acc t h
    cases v with
    | num q =>
      obtain ⟨qs, hl, hs⟩ := ih (acc + q) t h
      exact ⟨q :: qs, by rw [hl]; rfl, by rw [← hs, List.sum_cons]; ring⟩
    | str s => simp [pySumAux] at h

/-- A successful `sum` means every value was a number summing to the total. -/
theorem pySum_ok (l : List PyVal) (t : ℚ) (h : pySum l = .ok t) :
    ∃ qs : List ℚ, l = qs.map PyVal.num ∧ qs.sum = t := by
  obtain ⟨qs, hl, hs⟩ := pySumAux_ok l 0 t h
  exact ⟨qs, hl, by rw [← hs, zero_add]⟩

/-- Dividing every summand divides the sum. -/
theorem sum_map_div (qs : List ℚ) (t : ℚ) :
    (qs.map (· / t)).sum = qs.sum / t := by
  induction qs with
  | nil => simp
  | cons q r ih => simp [ih, add_div]

/-- After renormalization by a non-zero total, the category scores sum to
exactly 1. -/
theorem pySum_renormalize (res : Obj) (total : ℚ) (hnd : (keysOf res).Nodup)
    (hsum : pySum (weightVals res) = .ok total) (hnz : total ≠ 0) :
    pySum (weightVals (renormalize res total)) = .ok 1 := by
  obtain ⟨qs, hl, hs⟩ := pySum_ok _ _ hsum
  unfold weightVals at hl ⊢
  rw [weightPairs_renormalize res total hnd, List.map_map]
  have h1 : (weightPairs res).map (Prod.snd ∘ fun kv => (kv.1, pyDivVal kv.2 total))
      = ((weightPairs res).map Prod.snd).map fun v => pyDivVal v total := by
    rw [List.map_map]
    exact List.map_congr_left fun kv _ => rfl
  rw [h1, hl, List.map_map]
  have h2 : qs.map ((fun v => pyDivVal v total) ∘ PyVal.num)
      = (qs.map (· / total)).map PyVal.num := by
    rw [List.map_map]
    exact List.map_congr_left fun q _ => rfl
  rw [h2, pySum_map_num, sum_map_div, hs, div_self hnz]

/-- The recovery dictionary carries exactly eight zero weights. -/
theorem weightVals_errorResult (msg : String) :
    weightVals (errorResult msg) = List.replicate 8 (PyVal.num 0) := rfl

/-- Every run of `analyze_proposal` either returns the recovery dictionary
or reaches the post-parse computation on the decoded dict. -/
theorem analyze_proposal_cases (outcome : Except String String)
    (decode : String → Except String Obj) :
    (∃ msg, analyze_proposal outcome decode = errorResult msg)
    ∨ (∃ text s obj r, outcome = .ok text ∧ extractJsonSlice text = some s ∧
        decode s = .ok obj ∧ analyze_proposal_parsed (pyDict obj) = .ok r ∧
        analyze_proposal outcome decode = r) := by
  cases outcome with
  | error e => exact Or.inl ⟨e, rfl⟩
  | ok text =>
    cases hs : extractJsonSlice text with
    | none =>
      exact Or.inl ⟨"No valid JSON found in response",
        by simp only [analyze_proposal, hs]⟩
    | some s =>
      cases hd : decode s with
      | error e => exact Or.inl ⟨e, by simp only [analyze_proposal, hs, hd]⟩
      | ok obj =>
        cases hp : analyze_proposal_parsed (pyDict obj) with
        | error e => exact Or.inl ⟨e, by simp only [analyze_proposal, hs, hd, hp]⟩
        | ok r =>
          exact Or.inr ⟨text, s, obj, r, rfl, hs, hd, hp,
            by simp only [analyze_proposal, hs, hd, hp]⟩

/-- A successful post-parse run either went through the renormalization
branch (without dividing by a zero total over nonempty category scores) or
returned the parsed dict unchanged. -/
theorem parsed_cases (d r : Obj) (h : analyze_proposal_parsed d = .ok r) :
    (∃ total, pySum (weightVals d) = .ok total ∧ 1/10000 < |total - 1| ∧
      ¬(total = 0 ∧ weightPairs d ≠ []) ∧ r = renormalize d total)
    ∨ (∃ total, pySum (weightVals d) = .ok total ∧ ¬ 1/10000 < |total - 1| ∧ r = d) := by
  unfold analyze_proposal_parsed at h
  split at h
  · cases h
  next total heq =>
    split at h
    next hfar =>
      split at h
      · cases h
      next hc => exact Or.inl ⟨total, heq, hfar, hc, (Except.ok.inj h).symm⟩
    next hfar => exact Or.inr ⟨total, heq, hfar, (Except.ok.inj h).symm⟩

/-- On a dict with distinct keys, a successful post-parse run returns
weights that sum within the tolerance of 1 — except in the corner where
the parsed dict carries no category-score pairs at all, in which case the
(empty) weight list is vacuously all-zero. -/
theorem parsed_sum_invariant (d : Obj) (hnd : (keysOf d).Nodup) (r : Obj)
    (h : analyze_proposal_parsed d = .ok r) :
    (∃ s, pySum (weightVals r) = .ok s ∧ |s - 1| ≤ 1/10000)
    ∨ ∀ v ∈ weightVals r, v = PyVal.num 0 := by
  rcases parsed_cases d r h with ⟨t, hs, _, hcond, rfl⟩ | ⟨t, hs, hfar, rfl⟩
  · by_cases hz : t = 0
    · have hemp : weightPairs d = [] := by
        by_contra hne
        exact hcond ⟨hz, hne⟩
      right
      intro v hv
      rw [show weightVals (renormalize d t) = [] from by
        unfold weightVals
        rw [weightPairs_renormalize d t hnd, hemp]
        rfl] at hv
      cases hv
    · exact Or.inl ⟨1, pySum_renormalize d t hnd hs hz, by norm_num⟩
  · exact Or.inl ⟨t, hs, le_of_not_lt hfar⟩

/-- C1: every `analyze_proposal` result carries category weights that
either sum to within 1e-4 of 1.0 (success path, after any
renormalization) or are all exactly 0.0 (recovered-error path). -/
theorem category_weights_sum_invariant (outcome : Except String String)
    (decode : String → Except String Obj) :
    (∃ s, pySum (weightVals (analyze_proposal outcome decode)) = .ok s
        ∧ |s - 1| ≤ 1/10000)
    ∨ ∀ v ∈ weightVals (analyze_proposal outcome decode), v = PyVal.num 0 := by
  rcases analyze_proposal_cases outcome decode with ⟨msg, hm⟩ | ⟨_, _, obj, r, _, _, _, hp, hr⟩
  · right
    rw [hm, weightVals_errorResult]
    exact fun v hv => List.eq_of_mem_replicate hv
  · rw [hr]
    exact parsed_sum_invariant _ (nodup_keysOf_pyDict obj) r hp

/-- The category values of the scenario response `objC2`, in order. -/
theorem weightVals_objC2 : weightVals objC2
    = [.num (1/2), .num (3/5), .num 0, .num 0, .num 0, .num 0, .num 0, .num 0] := rfl

/-- The scenario response's category values total 1.1. -/
theorem pySum_objC2 : pySum (weightVals objC2) = .ok (11/10) := by
  show Except.ok ((((((((0:ℚ) + 1/2) + 3/5) + 0) + 0) + 0) + 0) + 0 + 0) = .ok (11/10)
  norm_num

/-- A total of 1.1 is beyond the 1e-4 tolerance. -/
theorem far_objC2 : (1:ℚ)/10000 < |11/10 - 1| := by
  rw [show (11:ℚ)/10 - 1 = 1/10 from by norm_num]
  rw [abs_of_pos (by norm_num : (0:ℚ) < 1/10)]
  norm_num

/-- The post-parse run on the scenario response renormalizes by 1.1. -/
theorem parsed_objC2 : analyze_proposal_parsed objC2 = .ok (renormalize objC2 (11/10)) := by
  simp only [analyze_proposal_parsed, pySum_objC2]
  rw [if_pos far_objC2, if_neg fun hc => (by norm_num : ¬ (11:ℚ)/10 = 0) hc.1]

/-- The full analyzer on the scenario response returns the renormalized
dict. -/
theorem analyze_objC2 : analyze_proposal (.ok "{x}") (fun _ => .ok objC2)
    = renormalize objC2 (11/10) := by
  simp only [analyze_proposal, show extractJsonSlice "{x}" = some "{x}" from rfl,
    show pyDict objC2 = objC2 from rfl, parsed_objC2]

/-- C2 (counterexample): on the renormalized scenario response `objC2`
(scores 0.5/0.6, sum 1.1, model-reported primary `protocol_parameters`),
`analyze_proposal` keeps the model-provided `primary_category` even though
the argmax of the renormalized weights is `treasury_management` — the
primary category is not recomputed and the model value is not treated as a
mere hint. -/
theorem renorm_primary_not_recomputed_cx :
    lookupKey "primary_category" (analyze_proposal (.ok "{x}") fun _ => .ok objC2)
      = some (PyVal.str "protocol_parameters")
    ∧ argmaxKey (analyze_proposal (.ok "{x}") fun _ => .ok objC2)
      = some "treasury_management"
    ∧ ("protocol_parameters" : String) ≠ "treasury_management" := by
  refine ⟨?_, ?_, by decide⟩
  · rw [analyze_objC2]
    rfl
  · rw [analyze_objC2]
    norm_num [argmaxKey, argmaxNumAux,
      show weightPairs (renormalize objC2 (11/10))
        = [("protocol_parameters", PyVal.num ((1/2)/(11/10))),
           ("treasury_management", PyVal.num ((3/5)/(11/10))),
           ("tokenomics", PyVal.num (0/(11/10))),
           ("protocol_upgrades", PyVal.num (0/(11/10))),
           ("governance_process", PyVal.num (0/(11/10))),
           ("partnerships_integrations", PyVal.num (0/(11/10))),
           ("risk_management", PyVal.num (0/(11/10))),
           ("community_initiatives", PyVal.num (0/(11/10)))] from rfl]

/-- C2 (amended): when the parsed category values sum to a total with
|total − 1| > 1e-4 and total ≠ 0, `analyze_proposal` divides every
category value by the total, but leaves `primary_category` exactly as the
model provided it (no recomputation as the argmax of the renormalized
values). -/
theorem renorm_divides_keeps_model_primary (res : Obj) (total : ℚ)
    (hnd : (keysOf res).Nodup)
    (hsum : pySum (weightVals res) = .ok total)
    (hfar : 1/10000 < |total - 1|) (hnz : total ≠ 0) :
    analyze_proposal_parsed res = .ok (renormalize res total)
    ∧ weightPairs (renormalize res total)
        = ((weightPairs res).map fun kv => (kv.1, pyDivVal kv.2 total))
    ∧ lookupKey "primary_category" (renormalize res total)
        = lookupKey "primary_category" res := by
  refine ⟨?_, weightPairs_renormalize res total hnd, lookupKey_renormalize_pc res total⟩
  simp only [analyze_proposal_parsed, hsum]
  rw [if_pos hfar, if_neg fun hc => hnz hc.1]

/-- C2 (witness): the amended statement applied to the scenario response
`objC2`. -/
theorem renorm_divides_keeps_model_primary_wit :
    ((keysOf objC2).Nodup ∧ pySum (weightVals objC2) = .ok (11/10)
      ∧ (1/10000 : ℚ) < |11/10 - 1| ∧ (11/10 : ℚ) ≠ 0)
    ∧ (analyze_proposal_parsed objC2 = .ok (renormalize objC2 (11/10))
      ∧ weightPairs (renormalize objC2 (11/10))
          = ((weightPairs objC2).map fun kv => (kv.1, pyDivVal kv.2 (11/10)))
      ∧ lookupKey "primary_category" (renormalize objC2 (11/10))
          = lookupKey "primary_category" objC2) :=
  ⟨⟨by decide, pySum_objC2, far_objC2, by norm_num⟩,
    renorm_divides_keeps_model_primary objC2 (11/10) (by decide) pySum_objC2
      far_objC2 (by norm_num)⟩

/-- The all-zero response's category values total 0. -/
theorem pySum_objZero : pySum (weightVals objZero) = .ok 0 := by
  show Except.ok ((((((((0:ℚ) + 0) + 0) + 0) + 0) + 0) + 0) + 0 + 0) = .ok 0
  norm_num

/-- The post-parse run on the all-zero response (eight category-score
pairs present) divides by zero and raises. -/
theorem parsed_objZero : analyze_proposal_parsed objZero = .error zeroDivisionMsg := by
  simp only [analyze_proposal_parsed, pySum_objZero]
  rw [if_pos (by rw [zero_sub, abs_neg, abs_one]; norm_num : (1:ℚ)/10000 < |0 - 1|)]
  rw [if_pos ⟨trivial, by decide⟩]

/-- A parsed dict with no category-score pairs at all (here only a `sum`
entry) totals zero, yet the renormalization loop body never runs: the
branch succeeds and merely sets `sum` to `1.0`, matching CPython. -/
theorem parsed_sumOnly :
    analyze_proposal_parsed [("sum", PyVal.num 5)] = .ok [("sum", PyVal.num 1)] := by
  have hs : pySum (weightVals ([("sum", PyVal.num 5)] : Obj)) = .ok 0 := rfl
  simp only [analyze_proposal_parsed, hs]
  rw [if_pos (by rw [zero_sub, abs_neg, abs_one]; norm_num : (1:ℚ)/10000 < |0 - 1|)]
  rw [if_neg fun hc => hc.2 rfl]
  rfl

/-- C4 (counterexample): on the all-zero response `objZero` the
renormalization divides by the zero total and raises; the handler relabels
`primary_category` to `"error"` — not the first-listed category of the
fixed enumeration, which is what the tie-break rule would give. -/
theorem zero_total_primary_error_cx :
    analyze_proposal (.ok "{x}") (fun _ => .ok objZero) = errorResult zeroDivisionMsg
    ∧ lookupKey "primary_category" (errorResult zeroDivisionMsg)
        = some (PyVal.str "error")
    ∧ PyVal.str "error" ≠ PyVal.str "protocol_parameters"
    ∧ categoryKeys.contains "error" = false := by
  refine ⟨?_, rfl, by decide, by decide⟩
  simp only [analyze_proposal, show extractJsonSlice "{x}" = some "{x}" from rfl,
    show pyDict objZero = objZero from rfl, parsed_objZero]

/-- C4 (amended): when the successfully parsed response carries at least
one category-score entry and those values sum to exactly 0, the
renormalization divides by zero and `analyze_proposal` returns the
recovery dictionary: all-zero weights, `primary_category` `"error"` and a
diagnostic summary, rather than the tie-break category. (A parsed
response with no category-score entries at all instead succeeds with
`sum` set to `1.0`, the division loop never running.) -/
theorem zero_total_error_recovery (text s : String)
    (decode : String → Except String Obj) (obj : Obj)
    (h1 : extractJsonSlice text = some s) (h2 : decode s = .ok obj)
    (h3 : pySum (weightVals (pyDict obj)) = .ok 0)
    (h4 : weightPairs (pyDict obj) ≠ []) :
    analyze_proposal (.ok text) decode = errorResult zeroDivisionMsg := by
  have hp : analyze_proposal_parsed (pyDict obj) = .error zeroDivisionMsg := by
    simp only [analyze_proposal_parsed, h3]
    rw [if_pos (by rw [zero_sub, abs_neg, abs_one]; norm_num : (1:ℚ)/10000 < |0 - 1|)]
    rw [if_pos ⟨trivial, h4⟩]
  simp only [analyze_proposal, h1, h2, hp]

/-- C4 (witness): the amended statement applied to the concrete all-zero
response `objZero`. -/
theorem zero_total_error_recovery_wit :
    (extractJsonSlice "{x}" = some "{x}"
      ∧ (fun _ : String => (Except.ok objZero : Except String Obj)) "{x}" = Except.ok objZero
      ∧ pySum (weightVals (pyDict objZero)) = .ok 0
      ∧ weightPairs (pyDict objZero) ≠ [])
    ∧ analyze_proposal (.ok "{x}") (fun _ => .ok objZero) = errorResult zeroDivisionMsg :=
  ⟨⟨rfl, rfl, pySum_objZero, by decide⟩,
    zero_total_error_recovery "{x}" "{x}" _ objZero rfl rfl pySum_objZero (by decide)⟩

/-- The response with the extra `foo` key already sums to 1 and is
returned unchanged by the post-parse run. -/
theorem parsed_objFoo : analyze_proposal_parsed objFoo = .ok objFoo := by
  have hs : pySum (weightVals objFoo) = .ok 1 := by
    show Except.ok (((0:ℚ) + 1/2) + 1/2) = .ok 1
    norm_num
  simp only [analyze_proposal_parsed, hs]
  simp

/-- C10 (counterexample): the successfully parsed response `objFoo`
(category key `foo` in place of seven expected keys) yields weights over
the key set `[protocol_parameters, foo]`, not the fixed 8-key set. -/
theorem weight_keyset_extra_key_cx :
    weightKeys (analyze_proposal (.ok "{x}") fun _ => .ok objFoo)
      = ["protocol_parameters", "foo"]
    ∧ (["protocol_parameters", "foo"] : List String) ≠ categoryKeys := by
  refine ⟨?_, by decide⟩
  simp only [analyze_proposal, show extractJsonSlice "{x}" = some "{x}" from rfl,
    show pyDict objFoo = objFoo from rfl, parsed_objFoo]
  rfl

/-- C10 (amended): on the success path the weight key set equals the
parsed response's key set minus `sum`/`primary_category`/`summary` — the
fixed 8 categories only when the response carries exactly those keys;
missing or extra category keys carry over to the returned weights. -/
theorem weight_keyset_follows_response (res r : Obj)
    (hnd : (keysOf res).Nodup)
    (h : analyze_proposal_parsed res = .ok r) :
    weightKeys r = weightKeys res := by
  rcases parsed_cases res r h with ⟨t, hs, _, _, rfl⟩ | ⟨t, hs, _, rfl⟩
  · unfold weightKeys
    rw [weightPairs_renormalize res t hnd, List.map_map]
    exact List.map_congr_left fun kv _ => rfl
  · rfl

/-- C10 (witness): the amended statement applied to the renormalizing
scenario response `objC2`. -/
theorem weight_keyset_follows_response_wit :
    ((keysOf objC2).Nodup
      ∧ analyze_proposal_parsed objC2 = .ok (renormalize objC2 (11/10)))
    ∧ weightKeys (renormalize objC2 (11/10)) = weightKeys objC2 :=
  ⟨⟨by decide, parsed_objC2⟩,
    weight_keyset_follows_response objC2 (renormalize objC2 (11/10)) (by decide) parsed_objC2⟩

/-- C3 (counterexample): batches yielding key points `[a, b]` then `[b, c]`
aggregate to `[a, b, b, c]` — plain concatenation, not the order-preserving
deduplication `[a, b, c]` that the specification describes. -/
theorem aggregate_dedup_cx :
    (analyze_all_comments 1 [⟨"c1"⟩, ⟨"c2"⟩]
        (fun i => .ok (if i = 0 then "{A}" else "{B}"))
        (fun s => if s = "{A}" then .ok ⟨0, "sA", ["a", "b"], [], []⟩
                  else .ok ⟨0, "sB", ["b", "c"], [], []⟩)
        (.ok "ok")).map SentimentAggregate.key_points = .ok ["a", "b", "b", "c"]
    ∧ (["a", "b", "b", "c"] : List String)
        ≠ dedupFirstOccurrence (["a", "b"] ++ ["b", "c"]) :=
  ⟨rfl, by decide⟩

/-- C3 (amended): in the aggregate of `analyze_all_comments`, each of
`key_points`, `concerns` and `suggestions` equals the plain concatenation
of the per-batch lists in batch order, with exact duplicates retained (no
deduplication). -/
theorem aggregate_lists_plain_concat (bs : Nat) (comments : List Comment)
    (oracle : Nat → Except String String)
    (decode : String → Except String BatchAnalysis)
    (synth : Except String String) (hbs : bs ≠ 0) :
    ∃ agg, analyze_all_comments bs comments oracle decode synth = .ok agg
      ∧ agg.key_points
          = ((batchResults bs comments oracle decode).map fun r => r.analysis.key_points).flatten
      ∧ agg.concerns
          = ((batchResults bs comments oracle decode).map fun r => r.analysis.concerns).flatten
      ∧ agg.suggestions
          = ((batchResults bs comments oracle decode).map fun r => r.analysis.suggestions).flatten := by
  by_cases hne : comments = []
  · subst hne
    exact ⟨⟨0, "No comments to analyze", [], [], [], 0⟩, rfl, rfl, rfl, rfl⟩
  · simp only [analyze_all_comments, if_neg hne, if_neg hbs]
    exact ⟨_, rfl, rfl, rfl, rfl⟩

/-- C3 (witness): the amended statement applied to the two-batch run of
the counterexample scenario. -/
theorem aggregate_lists_plain_concat_wit :
    ((1 : Nat) ≠ 0)
    ∧ ∃ agg, analyze_all_comments 1 [⟨"c1"⟩, ⟨"c2"⟩]
        (fun i => .ok (if i = 0 then "{A}" else "{B}"))
        (fun s => if s = "{A}" then .ok ⟨0, "sA", ["a", "b"], [], []⟩
                  else .ok ⟨0, "sB", ["b", "c"], [], []⟩)
        (.ok "ok") = .ok agg
      ∧ agg.key_points
          = ((batchResults 1 [⟨"c1"⟩, ⟨"c2"⟩]
              (fun i => .ok (if i = 0 then "{A}" else "{B}"))
              (fun s => if s = "{A}" then .ok ⟨0, "sA", ["a", "b"], [], []⟩
                        else .ok ⟨0, "sB", ["b", "c"], [], []⟩)).map
                fun r => r.analysis.key_points).flatten
      ∧ agg.concerns
          = ((batchResults 1 [⟨"c1"⟩, ⟨"c2"⟩]
              (fun i => .ok (if i = 0 then "{A}" else "{B}"))
              (fun s => if s = "{A}" then .ok ⟨0, "sA", ["a", "b"], [], []⟩
                        else .ok ⟨0, "sB", ["b", "c"], [], []⟩)).map
                fun r => r.analysis.concerns).flatten
      ∧ agg.suggestions
          = ((batchResults 1 [⟨"c1"⟩, ⟨"c2"⟩]
              (fun i => .ok (if i = 0 then "{A}" else "{B}"))
              (fun s => if s = "{A}" then .ok ⟨0, "sA", ["a", "b"], [], []⟩
                        else .ok ⟨0, "sB", ["b", "c"], [], []⟩)).map
                fun r => r.analysis.suggestions).flatten :=
  ⟨by decide, aggregate_lists_plain_concat 1 [⟨"c1"⟩, ⟨"c2"⟩] _ _ (.ok "ok") (by decide)⟩

/-- C6: a batch whose model call failed or whose response holds no JSON
object yields the zero/empty diagnostic result for that batch only; every
batch still produces a result, and the aggregate sentiment score is the
arithmetic mean over all batch scores, the failed batch counting as 0. -/
theorem failed_batch_isolated_mean (bs : Nat) (comments : List Comment)
    (oracle : Nat → Except String String)
    (decode : String → Except String BatchAnalysis)
    (synth : Except String String) (j : Nat)
    (hne : comments ≠ []) (hbs : bs ≠ 0)
    (hj : j < (chunks bs comments).length)
    (hfail : batchFailed (oracle j)) :
    ∃ agg, analyze_all_comments bs comments oracle decode synth = .ok agg
      ∧ (batchResults bs comments oracle decode).length = (chunks bs comments).length
      ∧ (∃ e b, (chunks bs comments)[j]? = some b
          ∧ (batchResults bs comments oracle decode)[j]? = some ⟨b, errorBatchAnalysis e⟩)
      ∧ agg.sentiment_score
          = ((batchResults bs comments oracle decode).map
              fun r => r.analysis.sentiment_score).sum
            / ((batchResults bs comments oracle decode).length : ℚ) := by
  have hlen : (batchResults bs comments oracle decode).length
      = (chunks bs comments).length := by
    unfold batchResults
    rw [List.length_map, List.enum_length]
  obtain ⟨b, hb⟩ : ∃ b, (chunks bs comments)[j]? = some b :=
    ⟨_, List.getElem?_eq_getElem hj⟩
  have hres : (batchResults bs comments oracle decode)[j]?
      = some (analyze_comment_batch b (oracle j) decode) := by
    unfold batchResults
    rw [List.getElem?_map, List.getElem?_enum, hb]
    rfl
  have hfailres : ∃ e, analyze_comment_batch b (oracle j) decode
      = ⟨b, errorBatchAnalysis e⟩ := by
    cases ho : oracle j with
    | error e => exact ⟨e, by simp only [analyze_comment_batch]⟩
    | ok t =>
      rw [ho] at hfail
      simp only [batchFailed] at hfail
      exact ⟨"No valid JSON found in response",
        by simp only [analyze_comment_batch, hfail]⟩
  obtain ⟨e, hfe⟩ := hfailres
  simp only [analyze_all_comments, if_neg hne, if_neg hbs]
  exact ⟨_, rfl, hlen, ⟨e, b, hb, by rw [hres, hfe]⟩, rfl⟩

/-- C6 (witness): the claim applied to a two-batch run whose first batch
response holds no JSON object. -/
theorem failed_batch_isolated_mean_wit :
    (([⟨"c1"⟩, ⟨"c2"⟩] : List Comment) ≠ [] ∧ (1 : Nat) ≠ 0
      ∧ 0 < (chunks 1 ([⟨"c1"⟩, ⟨"c2"⟩] : List Comment)).length
      ∧ batchFailed (.ok "no json"))
    ∧ ∃ agg, analyze_all_comments 1 [⟨"c1"⟩, ⟨"c2"⟩]
        (fun i => if i = 0 then .ok "no json" else .ok "{B}")
        (fun _ => .ok ⟨1/2, "sB", [], [], []⟩) (.ok "fine") = .ok agg
      ∧ (batchResults 1 [⟨"c1"⟩, ⟨"c2"⟩]
          (fun i => if i = 0 then .ok "no json" else .ok "{B}")
          (fun _ => .ok ⟨1/2, "sB", [], [], []⟩)).length
        = (chunks 1 ([⟨"c1"⟩, ⟨"c2"⟩] : List Comment)).length
      ∧ (∃ e b, (chunks 1 ([⟨"c1"⟩, ⟨"c2"⟩] : List Comment))[0]? = some b
          ∧ (batchResults 1 [⟨"c1"⟩, ⟨"c2"⟩]
              (fun i => if i = 0 then .ok "no json" else .ok "{B}")
              (fun _ => .ok ⟨1/2, "sB", [], [], []⟩))[0]?
            = some ⟨b, errorBatchAnalysis e⟩)
      ∧ agg.sentiment_score
          = ((batchResults 1 [⟨"c1"⟩, ⟨"c2"⟩]
              (fun i => if i = 0 then .ok "no json" else .ok "{B}")
              (fun _ => .ok ⟨1/2, "sB", [], [], []⟩)).map
                fun r => r.analysis.sentiment_score).sum
            / ((batchResults 1 [⟨"c1"⟩, ⟨"c2"⟩]
                (fun i => if i = 0 then .ok "no json" else .ok "{B}")
                (fun _ => .ok ⟨1/2, "sB", [], [], []⟩)).length : ℚ) :=
  ⟨⟨by decide, by decide, by decide, rfl⟩,
    failed_batch_isolated_mean 1 [⟨"c1"⟩, ⟨"c2"⟩] _ _ (.ok "fine") 0
      (by decide) (by decide) (by decide) rfl⟩

/-- C9 (counterexample): when the final synthesis call fails, the aggregate
summary is the diagnostic string, which does not even contain the sole
per-batch summary `s1` — it is not a concatenation of batch summaries. -/
theorem synth_failure_not_concat_cx :
    (analyze_all_comments 1 [⟨"c"⟩] (fun _ => .ok "{A}")
        (fun _ => .ok ⟨1, "s1", [], [], []⟩) (.error "boom")).map
        SentimentAggregate.summary
      = .ok "Error generating final summary: boom"
    ∧ ¬ ("s1".toList <:+: "Error generating final summary: boom".toList) :=
  ⟨rfl, by decide⟩

/-- C9 (amended): a failing summary-synthesis call never propagates out of
`analyze_all_comments`; the aggregate is still returned, with its summary
set to the diagnostic string `Error generating final summary: <error>`
(not to a concatenation of the per-batch summaries). -/
theorem synth_failure_diagnostic_summary (bs : Nat) (comments : List Comment)
    (oracle : Nat → Except String String)
    (decode : String → Except String BatchAnalysis) (e : String)
    (hne : comments ≠ []) (hbs : bs ≠ 0) :
    ∃ agg, analyze_all_comments bs comments oracle decode (.error e) = .ok agg
      ∧ agg.summary = "Error generating final summary: " ++ e := by
  simp only [analyze_all_comments, if_neg hne, if_neg hbs]
  exact ⟨_, rfl, rfl⟩

/-- C9 (witness): the amended statement applied to a one-batch run whose
synthesis call fails with `boom`. -/
theorem synth_failure_diagnostic_summary_wit :
    (([⟨"c"⟩] : List Comment) ≠ [] ∧ (1 : Nat) ≠ 0)
    ∧ ∃ agg, analyze_all_comments 1 [⟨"c"⟩] (fun _ => .ok "{A}")
        (fun _ => .ok ⟨1, "s1", [], [], []⟩) (.error "boom") = .ok agg
      ∧ agg.summary = "Error generating final summary: " ++ "boom" :=
  ⟨⟨by decide, by decide⟩,
    synth_failure_diagnostic_summary 1 [⟨"c"⟩] _ _ "boom" (by decide) (by decide)⟩

/-- C5: `EvaluatorAgent.evaluate_proposal` rejects every category outside
the fixed 8-entry prompt table with an error raised to the caller, before
any model-collaborator invocation (the invocation count is 0). -/
theorem unknown_category_rejected (category : String)
    (outcome : Except String String)
    (h : evaluator_prompts_keys.contains category = false) :
    evaluate_proposal category outcome
      = (.error ("Unknown category: " ++ category), 0) := by
  unfold evaluate_proposal
  rw [h]
  rfl

/-- C5 (witness): the claim applied to the category
`nonexistent_category`. -/
theorem unknown_category_rejected_wit :
    evaluator_prompts_keys.contains "nonexistent_category" = false
    ∧ evaluate_proposal "nonexistent_category" (.ok "x")
        = (.error ("Unknown category: " ++ "nonexistent_category"), 0) :=
  ⟨by decide, unknown_category_rejected "nonexistent_category" (.ok "x") (by decide)⟩

/-- C7 (counterexample): on a response that is a well-formed
DeepEvaluation-shaped JSON object with `score` 0.9 and `reasoning`
present, `evaluate_proposal` returns score 0.0 and no `reasoning` key —
the response is not parsed as JSON and present fields are not extracted. -/
theorem evaluator_no_json_parse_cx :
    evaluate_proposal "tokenomics" (.ok deepEvalResponse)
      = (.ok [("score", PyVal.num 0), ("analysis", .str deepEvalResponse),
              ("category", .str "tokenomics")], 1)
    ∧ lookupKey "reasoning"
        [("score", PyVal.num 0), ("analysis", PyVal.str deepEvalResponse),
         ("category", PyVal.str "tokenomics")] = none
    ∧ PyVal.num 0 ≠ PyVal.num (9/10) :=
  ⟨rfl, rfl, by norm_num⟩

/-- C7 (amended): for a known category, `evaluate_proposal` in
`evaluator_agents.py` returns a dictionary with exactly the keys `score`,
`analysis`, `category`: the raw response text under `analysis`, a
regex-extracted score (0.0 when nothing matches), and none of the
DeepEvaluation fields `reasoning`/`key_findings`/`information_gaps`/
`recommendations` — per-field defaulting of that shape happens in the API
layer, not here. -/
theorem evaluator_raw_analysis_shape (category text : String)
    (h : evaluator_prompts_keys.contains category = true) :
    ∃ r, evaluate_proposal category (.ok text) = (.ok r, 1)
      ∧ keysOf r = ["score", "analysis", "category"]
      ∧ lookupKey "score" r = some (.num (extract_score text))
      ∧ lookupKey "analysis" r = some (.str text)
      ∧ lookupKey "category" r = some (.str category)
      ∧ lookupKey "reasoning" r = none
      ∧ lookupKey "key_findings" r = none
      ∧ lookupKey "information_gaps" r = none
      ∧ lookupKey "recommendations" r = none :=
  ⟨evaluatorAnalysis text category,
    by unfold evaluate_proposal; rw [h]; rfl, rfl, rfl, rfl, rfl, rfl, rfl, rfl, rfl⟩

/-- C7 (witness): the amended statement applied to the category
`tokenomics` and a plain-text response. -/
theorem evaluator_raw_analysis_shape_wit :
    evaluator_prompts_keys.contains "tokenomics" = true
    ∧ ∃ r, evaluate_proposal "tokenomics" (.ok "fine analysis") = (.ok r, 1)
      ∧ keysOf r = ["score", "analysis", "category"]
      ∧ lookupKey "score" r = some (.num (extract_score "fine analysis"))
      ∧ lookupKey "analysis" r = some (.str "fine analysis")
      ∧ lookupKey "category" r = some (.str "tokenomics")
      ∧ lookupKey "reasoning" r = none
      ∧ lookupKey "key_findings" r = none
      ∧ lookupKey "information_gaps" r = none
      ∧ lookupKey "recommendations" r = none :=
  ⟨by decide, evaluator_raw_analysis_shape "tokenomics" "fine analysis" (by decide)⟩

/-- C8: the pipeline callers pass two positional arguments (the comments
and the proposal summary) to `analyze_all_comments`, whose signature takes
only one; Python cannot bind such a call, so it raises `TypeError` — the
operation does not accept a `proposal_summary` argument and the
two-argument call never succeeds. -/
theorem sentiment_call_arity_mismatch :
    python_call_binds analyze_all_comments_param_count api_sentiment_call_arg_count
      = false
    ∧ analyze_all_comments_param_count = 1
    ∧ api_sentiment_call_arg_count = 2 := by decide

/-- C1 (witness): the invariant instantiated at the concrete renormalizing
run on the scenario response. -/
theorem category_weights_sum_invariant_wit :
    (∃ s, pySum (weightVals (analyze_proposal (.ok "{x}") fun _ => .ok objC2)) = .ok s
        ∧ |s - 1| ≤ 1/10000)
    ∨ ∀ v ∈ weightVals (analyze_proposal (.ok "{x}") fun _ => .ok objC2), v = PyVal.num 0 :=
  category_weights_sum_invariant (.ok "{x}") fun _ => .ok objC2
